import Mathlib

/-!
Verification of the transactional-minting engine of `useCandyMachineV3.tsx`
(Candy-Machine-V3-UI). The hook's core is shallowly embedded here:

* the `proofMemo` allow-list verifier (source lines 83-123),
* the error classifier of the `catch` block (source lines 267-286),
* the `mint` orchestration (source lines 150-294), modelled as a pure
  function over an explicit environment that fixes the outcome of every
  external call (blockhash fetch, transaction submissions, item lookups),
  returning the caller-visible result together with a trace of network
  events, the raw error passed to `console.error`, the classified message
  of the rethrow in `catch`, and the post-call guard-group state.

ECMAScript semantics that matter and are modelled explicitly:

* a `return` inside `finally` overrides a `throw` raised in `catch`
  (try-statement completion semantics), so once the `try` block is
  entered the caller always receives the `return nfts.filter(a => a)`
  value, never the classified error;
* any JS array, including the empty array, is truthy (`arrayTruthy`);
* `String.prototype.indexOf` yields `-1` when absent and `0` only when the
  pattern sits at the very start, so `if (s.indexOf(pat))` runs its branch
  exactly when `pat` is NOT a prefix of `s` (`jsIndexOf`).

The library functions `getMerkleTree` / `getMerkleProof` come from
`@metaplex-foundation/js` and the `GuardGroup` shape from `./types`
(neither under `src/`); those are modelled from the spec where noted.
-/

namespace CandyMachine

/-! ### JS string and array semantics -/

/-- JS truthiness of an array object: every array, including the empty
array, is truthy. `verifyProof`'s `!!merkle.proof` therefore never
distinguishes an empty proof from a non-empty one. -/
def arrayTruthy {α : Type} (_xs : List α) : Bool := true

/-- Does `pat` occur at the head of `s`? -/
def startsWithChars : List Char → List Char → Bool
  | _, [] => true
  | [], _ :: _ => false
  | a :: as, b :: bs => a == b && startsWithChars as bs

/-- First index at which `pat` occurs in `s`, scanning left to right. -/
def indexOfAux (pat : List Char) : List Char → Nat → Option Nat
  | [], i => if startsWithChars [] pat then some i else none
  | c :: rest, i =>
    if startsWithChars (c :: rest) pat then some i
    else indexOfAux pat rest (i + 1)

/-- `String.prototype.indexOf`: first occurrence index, `-1` when absent. -/
def jsIndexOf (s pat : String) : Int :=
  match indexOfAux pat.data s.data 0 with
  | some i => (i : Int)
  | none => -1

/-! ### Error classifier (source lines 267-286)

```js
let message = error.msg || "Minting failed! Please try again!";
if (!error.msg) {
  if (!error.message) {
    message = "Transaction Timeout! Please try again.";
  } else if (error.message.indexOf("0x138")) {
  } else if (error.message.indexOf("0x137")) {
    message = `SOLD OUT!`;
  } else if (error.message.indexOf("0x135")) {
    message = `Insufficient funds to mint. Please fund your wallet.`;
  }
} else {
  if (error.code === 311) {
    message = `SOLD OUT!`;
  } else if (error.code === 312) {
    message = `Minting period hasn't started yet.`;
  }
}
```
`indexOf(p)` is truthy exactly when `p` is not a prefix of the message, so
the first branch (empty body) fires for every message that does not start
with `"0x138"`, leaving the generic default in place. -/

/-- A raised JS failure, with the three properties the classifier reads.
An absent field is `none` (an empty-string `msg`, which JS would also
treat as falsy, is modelled as `none`). -/
structure JsError where
  msg : Option String := none
  message : Option String := none
  code : Option Int := none
  deriving DecidableEq, Repr

/-- The `catch` block's message computation, transcribed branch by branch
with JS `indexOf` truthiness made explicit. -/
def classify (error : JsError) : String :=
  match error.msg with
  | some m =>
    if error.code == some 311 then "SOLD OUT!"
    else if error.code == some 312 then "Minting period hasn't started yet."
    else m
  | none =>
    match error.message with
    | none => "Transaction Timeout! Please try again."
    | some m =>
      if jsIndexOf m "0x138" != 0 then
        "Minting failed! Please try again!"
      else if jsIndexOf m "0x137" != 0 then
        "SOLD OUT!"
      else if jsIndexOf m "0x135" != 0 then
        "Insufficient funds to mint. Please fund your wallet."
      else
        "Minting failed! Please try again!"

/-! ### JS-object lookup

`guardsAndGroups` and `merkles` are JS objects built by successive
assignments; for a duplicated key the later assignment wins. -/

/-- Lookup in an association list built by successive JS object
assignments: the last binding of a key wins. -/
def objGet {α : Type} : List (String × α) → String → Option α
  | [], _ => none
  | p :: rest, k =>
    match objGet rest k with
    | some v => some v
    | none => if p.1 == k then some p.2 else none

/-! ### Allow-list index

`getMerkleTree` and `getMerkleProof` are imported from
`@metaplex-foundation/js` (not under `src/`). -/

/-- Modelled from the spec: leaf hash is a one-way hash of the normalized
address string (a deterministic injective-enough fold over its chars). -/
def leafHash (s : String) : Nat :=
  s.data.foldl (fun a c => a * 1000003 + c.toNat + 1) 7

/-- Modelled from the spec: interior-node hash combining two child hashes
(Cantor pairing, shifted so it differs from both children). -/
def nodeHash (a b : Nat) : Nat :=
  (a + b) * (a + b + 1) / 2 + b + 1

/-- One level of the Merkle tree: hash adjacent pairs, promote an odd
trailing node. -/
def levelUp : List Nat → List Nat
  | [] => []
  | [x] => [x]
  | x :: y :: rest => nodeHash x y :: levelUp rest

/-- Fueled reduction of a leaf level to the root. -/
def rootAux : Nat → List Nat → Nat
  | _, [] => 0
  | _, [x] => x
  | 0, _ => 0
  | fuel + 1, l => rootAux fuel (levelUp l)

/-- Root of the Merkle tree over the given leaf hashes. -/
def rootOf (leaves : List Nat) : Nat := rootAux leaves.length leaves

/-- Modelled from the spec: `getMerkleTree(list).getRoot()` — the root of
the tree over the hashed address list. -/
def getMerkleRoot (lst : List String) : Nat := rootOf (lst.map leafHash)

/-- Sibling-hash path for the leaf at `idx`, bottom level first. -/
def siblingsAux : Nat → List Nat → Nat → List Nat
  | 0, _, _ => []
  | fuel + 1, level, idx =>
    if level.length ≤ 1 then []
    else
      let sib := if idx % 2 == 0 then idx + 1 else idx - 1
      let rest := siblingsAux fuel (levelUp level) (idx / 2)
      match level.get? sib with
      | some h => h :: rest
      | none => rest

/-- Modelled from the spec: `getMerkleProof(list, address)` — the ordered
sequence of sibling hashes for the address's leaf, and the empty sequence
when the address is absent from the list (signalling non-membership). -/
def getMerkleProof (lst : List String) (addr : String) : List Nat :=
  match lst.findIdx? (· == addr) with
  | none => []
  | some i => siblingsAux lst.length (lst.map leafHash) i

/-! ### proofMemo (source lines 83-123) -/

/-- A per-label entry of `proofMemo.merkles`: the caller's proof and the
tree's root. -/
structure Merkle where
  proof : List Nat
  root : Nat
  deriving DecidableEq, Repr

/-- The `merkles` object built by the `reduce` over the configured
allow-lists: one entry per group label, holding the tree (represented by
its root) and the current caller's proof. -/
def buildMerkles (allowLists : List (String × List String)) (caller : String) :
    List (String × Merkle) :=
  allowLists.map fun p => (p.1, ⟨getMerkleProof p.2 caller, getMerkleRoot p.2⟩)

/-- The three shapes `proofMemo` can take: no allow-lists configured
(bare always-true verifier, no `merkles` field), wallet key unknown
(always-false verifier, no `merkles` field), or the full object. -/
inductive VerifierCase
  | noAllowLists
  | noWallet
  | withMerkles (merkles : List (String × Merkle))
  deriving Repr

/-- The `React.useMemo` body computing `proofMemo`. -/
def proofMemo (allowLists : List (String × List String))
    (walletKey : Option String) : VerifierCase :=
  if allowLists.isEmpty then .noAllowLists
  else
    match walletKey with
    | none => .noWallet
    | some key => .withMerkles (buildMerkles allowLists key)

/-- The inner `verifyProof` closure (source lines 109-118):
returns `undefined` (here `none`) for an unknown label, otherwise
`!!merkle.proof && merkle.tree.getRoot().equals(Buffer.from(merkleRoot))`.
Note `!!merkle.proof` is `arrayTruthy`, i.e. always `true`. -/
def verifyProofImpl (merkles : List (String × Merkle)) (merkleRoot : Nat)
    (label : String) : Option Bool :=
  match objGet merkles label with
  | none => none
  | some merkle => some (arrayTruthy merkle.proof && merkle.root == merkleRoot)

/-- `proofMemo.verifyProof` in each of the three cases. -/
def verifyProofOf (c : VerifierCase) (merkleRoot : Nat) (label : String) :
    Option Bool :=
  match c with
  | .noAllowLists => some true
  | .noWallet => some false
  | .withMerkles ms => verifyProofImpl ms merkleRoot label

/-! ### Guard groups (shape from `./types`, not under `src/`) -/

/-- The mutable per-guard mint counter: `guards.mintLimit.mintCounter.count`. -/
structure MintCounter where
  count : Nat
  deriving DecidableEq, Repr

/-- The `mintLimit` guard, as far as `mint` reads it. -/
structure MintLimit where
  mintCounter : Option MintCounter := none
  deriving DecidableEq, Repr

/-- A parsed guard group. `mintLimit` mirrors the field `mint` mutates.
`hasAllowListGuard` is modelled from the spec (`./types` is not under
`src/`): whether the group's effective guard set contains an `allowList`
guard, i.e. whether the group requires allow-list verification. The
`mint` function itself never reads this flag. -/
structure GuardGroup where
  hasAllowListGuard : Bool := false
  mintLimit : Option MintLimit := none
  deriving DecidableEq, Repr

/-- Modelled from the spec: a group "requires allow-list verification"
exactly when its effective guard set contains an `allowList` guard. -/
def requiresAllowList (g : GuardGroup) : Bool := g.hasAllowListGuard

/-- `guards.mintLimit.mintCounter.count += n`, guarded by the truthiness
check `if (guards.mintLimit?.mintCounter)` (source lines 258-261). -/
def bumpCounter (g : GuardGroup) (n : Nat) : GuardGroup :=
  match g.mintLimit with
  | none => g
  | some ml =>
    match ml.mintCounter with
    | none => g
    | some c => { g with mintLimit := some { ml with mintCounter := some ⟨c.count + n⟩ } }

/-! ### Mint orchestration (source lines 150-294) -/

/-- The candy-machine snapshot, as far as `mint` reads it. -/
structure CandyMachine where
  authorityAddress : String := ""
  deriving DecidableEq, Repr

/-- One entry of `opts.nftGuards`: per-item NFT guard settings, with
opaque payloads. -/
structure NftGuardSettings where
  burn : Option Nat := none
  payment : Option Nat := none
  gate : Option Nat := none
  deriving DecidableEq, Repr

/-- The `opts` argument of `mint`. -/
structure MintOpts where
  groupLabel : Option String := none
  nftGuards : Option (List NftGuardSettings) := none
  deriving DecidableEq, Repr

/-- The `guards` record passed to `mintFromCandyMachineBuilder` for one
item (source lines 199-204). -/
structure MintGuards where
  nftBurn : Option Nat
  nftPayment : Option Nat
  nftGate : Option Nat
  allowList : Option (List Nat)
  deriving DecidableEq, Repr

/-- What a transaction builder in the plan is: the leading
`callCandyGuardRouteBuilder` (carrying the proof) or one
`mintFromCandyMachineBuilder` (carrying its per-item guards). -/
inductive TxKind
  | route (merkleProof : List Nat) (group : Option String)
  | mintTx (index : Nat) (guards : MintGuards)
  deriving DecidableEq, Repr

/-- A built transaction after `toTransaction(blockhash)` and the
`forEach` assignments of fee payer and recent blockhash. -/
structure Transaction where
  kind : TxKind
  feePayer : String
  recentBlockhash : Nat
  deriving DecidableEq, Repr

/-- Commitment level requested from `sendAndConfirmTransaction`. -/
inductive Commitment
  | processed
  | finalized
  deriving DecidableEq, Repr

/-- Observable network interactions of one `mint` call. -/
inductive Event
  | fetchBlockhash
  | submit (tx : Transaction) (commitment : Commitment)
  | lookup (index : Nat)
  | refresh
  deriving DecidableEq, Repr

/-- A minted item identifier, opaque to this core. -/
abbrev Item := Nat

/-- The environment of one `mint` call: the hook state it closes over and
the outcomes of every external call it may perform. A missing entry in
`mintOutcomes` means that submission succeeds; a missing entry in
`lookupOutcomes` means that lookup resolves to nothing. -/
structure MintEnv where
  guardsAndGroups : List (String × GuardGroup)
  candyMachine : Option CandyMachine
  merkles : Option (List (String × Merkle))
  walletPublicKey : String
  blockhash : Nat
  routeOutcome : Except JsError Unit := .ok ()
  mintOutcomes : List (Except JsError Unit) := []
  lookupOutcomes : List (Option Item) := []
  deriving Repr

/-- What the caller of `mint` observes: a genuine rejection (only possible
before the `try` block is entered) or the value of the `return` in
`finally`. -/
inductive CallerResult
  | thrown (message : String)
  | returned (items : List Item)
  deriving DecidableEq, Repr

/-- Everything one `mint` call produces: the caller-visible result, the
built transactions, the network-event trace, the raw error passed to
`console.error`, the classified message of the rethrow in `catch`
(overridden by the `return` in `finally`), and the guard groups after the
counter mutation. -/
structure MintOutcome where
  result : CallerResult
  plan : List Transaction
  events : List Event
  logged : Option JsError
  caught : Option String
  groups : List (String × GuardGroup)
  deriving Repr

/-- Outcome of the `i`-th mint-transaction submission. -/
def outcomeAt (outcomes : List (Except JsError Unit)) (i : Nat) :
    Except JsError Unit :=
  (outcomes.get? i).getD (Except.ok ())

/-- `Promise.all` over the mint submissions rejects with the error of a
failing member; all submissions were already started when it does. -/
def firstFailure (outcomes : List (Except JsError Unit)) (quantity : Nat) :
    Option JsError :=
  (List.range quantity).findSome? fun i =>
    match outcomeAt outcomes i with
    | .error e => some e
    | .ok _ => none

/-- The per-item `guards` record (source lines 199-204):
`opts.nftGuards && opts.nftGuards[index]?.burn` etc., plus the shared
`allowList` reference. -/
def guardsFor (opts : MintOpts) (index : Nat) (allowList : Option (List Nat)) :
    MintGuards :=
  match opts.nftGuards with
  | none => ⟨none, none, none, allowList⟩
  | some gs =>
    ⟨(gs.get? index).bind (·.burn), (gs.get? index).bind (·.payment),
      (gs.get? index).bind (·.gate), allowList⟩

/-- Result of the `try` block: the error it raised (if any), the value of
the `nfts` variable on exit, the built transactions, the events so far,
and the guard groups (mutated only on full success). -/
structure TryResult where
  err : Option JsError
  nfts : List (Option Item)
  plan : List Transaction
  events : List Event
  groups : List (String × GuardGroup)
  deriving Repr

/-- The `try` block of `mint` (source lines 167-266), given the already
computed `allowList` binding. Transcribed in order: candy-machine check;
empty-proof check and route builder; `quantity` mint builders; blockhash
fetch and transaction construction with shared fee payer and blockhash;
route submission at "processed" and, only after it, concurrent mint
submissions at "finalized"; item lookups with per-item failure tolerated
as `none`; counter increment by `nfts.length`. -/
def mintTry (env : MintEnv) (quantity : Nat) (opts : MintOpts)
    (allowList : Option (List Nat)) : TryResult :=
  match env.candyMachine with
  | none =>
    ⟨some { message := some "Candy Machine not loaded yet!" }, [], [], [],
      env.guardsAndGroups⟩
  | some _cm =>
    let proofEmpty :=
      match allowList with
      | some proof => proof.isEmpty
      | none => false
    if proofEmpty then
      ⟨some { message := some "User is not in allowed list" }, [], [], [],
        env.guardsAndGroups⟩
    else
      let routeKinds : List TxKind :=
        match allowList with
        | some proof => [TxKind.route proof opts.groupLabel]
        | none => []
      let mintKinds : List TxKind :=
        (List.range quantity).map fun i => TxKind.mintTx i (guardsFor opts i allowList)
      let mkTx : TxKind → Transaction :=
        fun k => ⟨k, env.walletPublicKey, env.blockhash⟩
      let routeTxs := routeKinds.map mkTx
      let mintTxs := mintKinds.map mkTx
      let txs := routeTxs ++ mintTxs
      let routeEvents := routeTxs.map fun t => Event.submit t Commitment.processed
      let routeErr : Option JsError :=
        if routeTxs.isEmpty then none
        else
          match env.routeOutcome with
          | .error e => some e
          | .ok _ => none
      match routeErr with
      | some e =>
        ⟨some e, [], txs, Event.fetchBlockhash :: routeEvents, env.guardsAndGroups⟩
      | none =>
        let submitEvents := mintTxs.map fun t => Event.submit t Commitment.finalized
        match firstFailure env.mintOutcomes quantity with
        | some e =>
          ⟨some e, [], txs, Event.fetchBlockhash :: (routeEvents ++ submitEvents),
            env.guardsAndGroups⟩
        | none =>
          let lookupEvents := (List.range quantity).map Event.lookup
          let nfts := (List.range quantity).map fun i =>
            (env.lookupOutcomes.get? i).getD none
          let groups := env.guardsAndGroups.map fun p => (p.1, bumpCounter p.2 nfts.length)
          ⟨none, nfts, txs,
            Event.fetchBlockhash :: (routeEvents ++ submitEvents ++ lookupEvents),
            groups⟩

/-- The `mint` callback (source lines 150-294). The unknown-group check
and the `allowList` binding run before the `try` statement, so their
failures genuinely reject the returned promise; reading
`proofMemo.merkles[opts.groupLabel]` when `proofMemo` has no `merkles`
field is a TypeError and also rejects. Once the `try` block is entered,
the `return nfts.filter((a) => a)` in `finally` overrides any `throw`
from `catch`, so the caller always receives the filtered item list. -/
def mint (env : MintEnv) (quantity : Nat) (opts : MintOpts) : MintOutcome :=
  let label := opts.groupLabel.getD "default"
  if (objGet env.guardsAndGroups label).isNone then
    { result := .thrown "Unknown guard group label", plan := [], events := [],
      logged := none, caught := none, groups := env.guardsAndGroups }
  else
    let allowListOrCrash : Except String (Option (List Nat)) :=
      match opts.groupLabel with
      | none => .ok none
      | some l =>
        match env.merkles with
        | none => .error "TypeError: Cannot read properties of undefined"
        | some ms => .ok ((objGet ms l).map fun m => m.proof)
    match allowListOrCrash with
    | .error msg =>
      { result := .thrown msg, plan := [], events := [],
        logged := none, caught := none, groups := env.guardsAndGroups }
    | .ok allowList =>
      let t := mintTry env quantity opts allowList
      { result := .returned (t.nfts.filterMap id),
        plan := t.plan,
        events := t.events ++ [Event.refresh],
        logged := t.err,
        caught := t.err.map classify,
        groups := t.groups }

/-! ### Observation helpers -/

/-- Is an event the blockhash fetch? -/
def isFetch : Event → Bool
  | .fetchBlockhash => true
  | _ => false

/-- Number of blockhash fetches in an event trace. -/
def fetchCount (events : List Event) : Nat := events.countP isFetch

/-! ### Concrete environments used by the individual claims -/

/-- C1 scenario: candy machine loaded, default group known, one mint
transaction whose submission fails with message "boom". -/
def envC1 : MintEnv :=
  { guardsAndGroups := [("default", {})], candyMachine := some {}, merkles := none,
    walletPublicKey := "w", blockhash := 1,
    mintOutcomes := [.error { message := some "boom" }] }

/-- C2 scenario: default group with a mint-limit counter at 0; three mint
transactions all finalized; the second item lookup fails. -/
def envC2 : MintEnv :=
  { guardsAndGroups := [("default", { mintLimit := some { mintCounter := some ⟨0⟩ } })],
    candyMachine := some {}, merkles := none, walletPublicKey := "w", blockhash := 1,
    lookupOutcomes := [some 10, none, some 20] }

/-- Environment family for the amended C2 statement: candy machine
loaded, default group present (plus arbitrary further groups), no
allow-list involvement, every submission finalized, item lookups given by
`lookups`. -/
def envSuccess (g : GuardGroup) (rest : List (String × GuardGroup)) (cm : CandyMachine)
    (lookups : List (Option Item)) (fp : String) (bh : Nat) : MintEnv :=
  { guardsAndGroups := ("default", g) :: rest, candyMachine := some cm, merkles := none,
    walletPublicKey := fp, blockhash := bh, lookupOutcomes := lookups }

/-- C5 scenario: group "grp" with a configured allow-list (non-empty
caller proof), route submission fails. -/
def envC5 : MintEnv :=
  { guardsAndGroups := [("grp", {})], candyMachine := some {},
    merkles := some [("grp", ⟨[9], 4⟩)], walletPublicKey := "w", blockhash := 1,
    routeOutcome := .error { message := some "route submit failed" } }

/-- The route transaction built in the C5 scenario. -/
def txC5 : Transaction := ⟨TxKind.route [9] (some "grp"), "w", 1⟩

/-- C6 scenario: group "grp" with a configured allow-list whose caller
proof is empty, candy machine loaded. -/
def envC6 : MintEnv :=
  { guardsAndGroups := [("grp", {})], candyMachine := some {},
    merkles := some [("grp", ⟨[], 4⟩)], walletPublicKey := "w", blockhash := 1 }

/-- C7 scenario: the default group's guard set requires allow-list
verification and an allow-list is configured for the "default" label. -/
def envC7 : MintEnv :=
  { guardsAndGroups := [("default", { hasAllowListGuard := true })],
    candyMachine := some {}, merkles := some [("default", ⟨[5], 7⟩)],
    walletPublicKey := "w", blockhash := 1 }

/-- C7 converse scenario: group "vip" whose guard set does NOT require
allow-list verification, but an allow-list is configured for "vip". -/
def envC7b : MintEnv :=
  { guardsAndGroups := [("vip", { hasAllowListGuard := false })],
    candyMachine := some {}, merkles := some [("vip", ⟨[5], 7⟩)],
    walletPublicKey := "w", blockhash := 1 }

/-- Environment family for the amended C7 statement, labelled case:
group `l` known, candy machine loaded, an allow-list configured for `l`
with non-empty caller proof `p :: ps`, all submissions succeeding. -/
def envLabelled (l : String) (g : GuardGroup) (cm : CandyMachine) (p : Nat)
    (ps : List Nat) (root : Nat) (fp : String) (bh : Nat) : MintEnv :=
  { guardsAndGroups := [(l, g)], candyMachine := some cm,
    merkles := some [(l, ⟨p :: ps, root⟩)], walletPublicKey := fp, blockhash := bh }

/-- Environment family for the amended C7 statement, unlabelled case:
default group known, candy machine loaded, arbitrary `merkles`. -/
def envUnlabelled (g : GuardGroup) (cm : CandyMachine)
    (m : Option (List (String × Merkle))) (fp : String) (bh : Nat) : MintEnv :=
  { guardsAndGroups := [("default", g)], candyMachine := some cm, merkles := m,
    walletPublicKey := fp, blockhash := bh }

/-- Boolean check that a planned transaction is a plain mint transaction
carrying no allow-list proof. -/
def isPlainMint : TxKind → Bool
  | .mintTx _ g2 => g2.allowList == none
  | .route _ _ => false

/-! ### Helper lemmas -/

theorem objGet_cons_self_isNone {α : Type} (k : String) (v : α)
    (rest : List (String × α)) : (objGet ((k, v) :: rest) k).isNone = false := by
  simp only [objGet]
  cases objGet rest k <;> simp

theorem objGet_map_snd {α β : Type} (f : α → β) (m : List (String × α)) (k : String) :
    objGet (m.map fun p => (p.1, f p.2)) k = (objGet m k).map f := by
  induction m with
  | nil => rfl
  | cons p rest ih =>
    simp only [List.map_cons, objGet, ih]
    cases objGet rest k with
    | some v => rfl
    | none => by_cases h : (p.1 == k) <;> simp [h]

theorem findSome?_const_none {α β : Type} (l : List α) :
    (l.findSome? fun _ => (none : Option β)) = none := by
  induction l with
  | nil => rfl
  | cons a l ih => simp [List.findSome?_cons, ih]

theorem firstFailure_nil (q : Nat) : firstFailure [] q = none := by
  unfold firstFailure
  exact findSome?_const_none _

theorem fetchCount_cons_fetch (rest : List Event) :
    fetchCount (Event.fetchBlockhash :: rest) = fetchCount rest + 1 := by
  simp [fetchCount, List.countP_cons, isFetch]

theorem fetchCount_append (a b : List Event) :
    fetchCount (a ++ b) = fetchCount a + fetchCount b := by
  simp [fetchCount, List.countP_append]

theorem fetchCount_map_submit (txs : List Transaction) (c : Commitment) :
    fetchCount (txs.map fun t => Event.submit t c) = 0 := by
  simp [fetchCount, List.countP_map, Function.comp_def, isFetch]

theorem fetchCount_map_lookup (l : List Nat) :
    fetchCount (l.map Event.lookup) = 0 := by
  simp [fetchCount, List.countP_map, Function.comp_def, isFetch]

theorem mem_mkTx {tx : Transaction} {ks : List TxKind} {fp : String} {bh : Nat}
    (h : tx ∈ ks.map fun k => Transaction.mk k fp bh) :
    tx.recentBlockhash = bh ∧ tx.feePayer = fp := by
  rcases List.mem_map.mp h with ⟨k, -, rfl⟩
  exact ⟨rfl, rfl⟩

theorem guardsFor_allowList_none (opts : MintOpts) (i : Nat) :
    (guardsFor opts i none).allowList = none := by
  unfold guardsFor
  cases opts.nftGuards <;> rfl

theorem objGet_append_last {α : Type} (xs : List (String × α)) (k : String) (v : α) :
    objGet (xs ++ [(k, v)]) k = some v := by
  induction xs with
  | nil => simp [objGet]
  | cons p rest ih => simp [objGet, ih]

theorem objGet_buildMerkles (als : List (String × List String)) (caller label : String) :
    objGet (buildMerkles als caller) label
      = (objGet als label).map fun lst =>
          (⟨getMerkleProof lst caller, getMerkleRoot lst⟩ : Merkle) := by
  induction als with
  | nil => rfl
  | cons p rest ih =>
    simp only [buildMerkles, List.map_cons] at ih ⊢
    simp only [objGet, ih]
    cases objGet rest label with
    | some v => rfl
    | none => by_cases h : (p.1 == label) <;> simp [h]

theorem mintTry_trace (env : MintEnv) (q : Nat) (opts : MintOpts)
    (al : Option (List Nat)) :
    fetchCount (mintTry env q opts al).events ≤ 1 ∧
    (∀ tx ∈ (mintTry env q opts al).plan,
      tx.recentBlockhash = env.blockhash ∧ tx.feePayer = env.walletPublicKey) ∧
    ((mintTry env q opts al).plan ≠ [] →
      fetchCount (mintTry env q opts al).events = 1) := by
  simp only [mintTry]
  repeat' split
  all_goals refine ⟨?_, ?_, ?_⟩
  all_goals first
    | (intro tx htx; rw [← List.map_append] at htx; exact mem_mkTx htx)
    | simp [fetchCount, List.countP_cons, List.countP_append,
        List.countP_map, Function.comp_def, isFetch]

theorem mintTry_plan_shape (env : MintEnv) (q : Nat) (opts : MintOpts)
    (al : Option (List Nat)) :
    (mintTry env q opts al).plan = [] ∨
    (mintTry env q opts al).plan =
      ((match al with
        | some proof => [TxKind.route proof opts.groupLabel]
        | none => []) ++
       (List.range q).map fun i => TxKind.mintTx i (guardsFor opts i al)).map
        fun k => Transaction.mk k env.walletPublicKey env.blockhash := by
  simp only [mintTry]
  repeat' split
  all_goals first
    | exact Or.inl rfl
    | (right; simp [List.map_append])

/-! ### Claims -/

/-- C1 (code-bug evidence): in a mint call where a submission failure
("boom") occurs after validation, the failure is classified and logged,
and the `catch` block rethrows the classified error — but the `return`
in `finally` overrides the rethrow, so the caller's promise resolves
normally with `[]` and no error reaches the caller. The claim that every
post-validation failure is surfaced to the caller as a thrown/returned
error is therefore violated by the code. -/
theorem C1_submission_failure_swallowed :
    (mint envC1 1 ⟨none, none⟩).logged = some { message := some "boom" } ∧
    (mint envC1 1 ⟨none, none⟩).caught = some "Minting failed! Please try again!" ∧
    (mint envC1 1 ⟨none, none⟩).result = CallerResult.returned [] := by
  refine ⟨by decide, by decide, by decide⟩

/-- C2 (counterexample): a mint call that resolves 2 of 3 requested items
(the second lookup fails) returns the 2 resolved items but increments the
group's mint-limit counter by 3, not 2 — `count += nfts.length` counts
the `null` slot of the failed lookup. -/
theorem C2_counterexample :
    (mint envC2 3 ⟨none, none⟩).result = CallerResult.returned [10, 20] ∧
    (mint envC2 3 ⟨none, none⟩).groups = [("default", ⟨false, some ⟨some ⟨3⟩⟩⟩)] ∧
    (3 : Nat) ≠ 2 := by
  refine ⟨by decide, by decide, by decide⟩

/-- C2 (amended): after a mint call whose submissions all finalize, every
group's mint-limit counter is incremented by the full requested quantity —
the number of finalized mint transactions, counting items whose lookup
failed — and the returned item sequence contains exactly the successfully
resolved (non-absent) items, in order. -/
theorem C2_counter_increment_amended (g : GuardGroup) (rest : List (String × GuardGroup))
    (cm : CandyMachine) (lookups : List (Option Item)) (q : Nat) (fp : String) (bh : Nat)
    (ng : Option (List NftGuardSettings)) :
    (mint (envSuccess g rest cm lookups fp bh) q ⟨none, ng⟩).groups
      = ("default", bumpCounter g q) :: rest.map (fun p => (p.1, bumpCounter p.2 q)) ∧
    (mint (envSuccess g rest cm lookups fp bh) q ⟨none, ng⟩).result
      = CallerResult.returned
          (((List.range q).map fun i => (lookups.get? i).getD none).filterMap id) := by
  have hob := objGet_cons_self_isNone "default" g rest
  constructor <;>
    simp [mint, mintTry, envSuccess, hob, firstFailure_nil,
      List.length_map, List.length_range]

/-- C4 (code-bug evidence): the classifier maps a failure with no message
to the timeout message as claimed, but a failure whose message CONTAINS
the sold-out signature "0x137" (not at position 0) is mapped to the
generic message, not to `SoldOut` — `indexOf` returns a truthy value
whenever the pattern is not a prefix, so the empty "0x138" branch
swallows it; conversely a message starting with "0x138" is mapped to
"SOLD OUT!". -/
theorem C4_classifier_eval :
    classify { message := none } = "Transaction Timeout! Please try again." ∧
    classify { message := some "custom program error: 0x137" }
      = "Minting failed! Please try again!" ∧
    "Minting failed! Please try again!" ≠ "SOLD OUT!" ∧
    classify { message := some "0x138 unrelated" } = "SOLD OUT!" := by
  refine ⟨by decide, by decide, by decide, by decide⟩

/-- C7 (counterexample): with quantity 1 and no explicit group label, the
default group requiring allow-list verification and an allow-list
configured for "default", the built plan has NO route transaction — the
code keys the route on `opts.groupLabel && proofMemo.merkles[label]`,
never on the group's guard set; conversely, for a group that does not
require allow-list verification but has a configured allow-list, a route
transaction IS built. -/
theorem C7_counterexample :
    requiresAllowList { hasAllowListGuard := true } = true ∧
    (mint envC7 1 ⟨none, none⟩).plan.map Transaction.kind
      = [TxKind.mintTx 0 ⟨none, none, none, none⟩] ∧
    requiresAllowList { hasAllowListGuard := false } = false ∧
    (mint envC7b 1 ⟨some "vip", none⟩).plan.map Transaction.kind
      = [TxKind.route [5] (some "vip"),
         TxKind.mintTx 0 ⟨none, none, none, some [5]⟩] := by
  refine ⟨by decide, by decide, by decide, by decide⟩

/-- C8: if no allow-list is configured at all, `verifyProof` returns true
for every caller and every label (open mint); if allow-lists are
configured but the caller has no known address, `verifyProof` returns
false for every label. -/
theorem C8_open_and_closed_mint :
    (∀ (walletKey : Option String) (root : Nat) (label : String),
      verifyProofOf (proofMemo [] walletKey) root label = some true) ∧
    (∀ (a : String × List String) (as : List (String × List String))
        (root : Nat) (label : String),
      verifyProofOf (proofMemo (a :: as) none) root label = some false) := by
  exact ⟨fun _ _ _ => rfl, fun _ _ _ _ => rfl⟩

/-- C3 (counterexample): with the allow-list ["alice"] configured for
label "grp" and caller "bob" not in the list, `getMerkleProof` returns
the empty proof as claimed, but `verifyProof` applied to the tree's root
and the label returns true, not false: `!!merkle.proof` is true even for
the empty array and only the stored tree root is compared against the
queried root. -/
theorem C3_counterexample :
    getMerkleProof ["alice"] "bob" = [] ∧
    verifyProofOf (proofMemo [("grp", ["alice"])] (some "bob"))
      (getMerkleRoot ["alice"]) "grp" = some true := by
  exact ⟨by decide, by decide⟩

/-- C3 (amended): for every configured allow-list and caller with a known
address, `buildProof` (`getMerkleProof`) returns the empty proof for
every address not in the list, but `verifyProof` applied to the stored
tree's root and the group's label returns true for every caller — member
or not — because the proof's emptiness is never checked (a JS array is
truthy even when empty) and only the stored root is compared against the
queried root. -/
theorem C3_membership_amended (restAls : List (String × List String))
    (caller label : String) (lst : List String) :
    (lst.contains caller || (getMerkleProof lst caller).isEmpty) = true ∧
    verifyProofOf (proofMemo (restAls ++ [(label, lst)]) (some caller))
      (getMerkleRoot lst) label = some true := by
  constructor
  · cases hc : lst.contains caller with
    | true => simp
    | false =>
      have hmem : caller ∉ lst := by simpa using hc
      have hidx : lst.findIdx? (· == caller) = none := by
        rw [List.findIdx?_eq_none_iff]
        intro x hx
        simp only [beq_eq_false_iff_ne, ne_eq]
        exact fun h => hmem (h ▸ hx)
      simp [getMerkleProof, hidx]
  · have hne : (restAls ++ [(label, lst)]).isEmpty = false := by
      cases restAls <;> rfl
    have hb : objGet (buildMerkles (restAls ++ [(label, lst)]) caller) label
        = some ⟨getMerkleProof lst caller, getMerkleRoot lst⟩ := by
      rw [objGet_buildMerkles, objGet_append_last]
      rfl
    simp [proofMemo, hne, verifyProofOf, verifyProofImpl, hb, arrayTruthy]

/-- C5 (code-bug evidence): when the route submission fails, the only
submission event is the route transaction at "processed" commitment — no
mint transaction is ever submitted at "finalized", confirming the
fail-fast ordering — and the failure is logged and classified, but the
`return` in `finally` overrides the rethrown classified error: the call
resolves normally with `[]` instead of failing with the classified
error. -/
theorem C5_route_failure_outcome :
    (mint envC5 2 ⟨some "grp", none⟩).events
      = [Event.fetchBlockhash, Event.submit txC5 Commitment.processed, Event.refresh] ∧
    (mint envC5 2 ⟨some "grp", none⟩).logged
      = some { message := some "route submit failed" } ∧
    (mint envC5 2 ⟨some "grp", none⟩).caught = some "Minting failed! Please try again!" ∧
    (mint envC5 2 ⟨some "grp", none⟩).result = CallerResult.returned [] := by
  refine ⟨by decide, by decide, by decide, by decide⟩

/-- C6 (code-bug evidence): a mint call against an allow-list group with
an empty caller proof performs zero network submissions (the only event
is the refresh of the cleanup step, before any blockhash fetch or
submission), and the "User is not in allowed list" error is raised and
logged — but the classifier maps it to the generic message and the
`return` in `finally` overrides the rethrow, so the call resolves
normally with `[]` instead of failing with `NotInAllowList`. -/
theorem C6_empty_proof_outcome :
    (mint envC6 1 ⟨some "grp", none⟩).events = [Event.refresh] ∧
    (mint envC6 1 ⟨some "grp", none⟩).logged
      = some { message := some "User is not in allowed list" } ∧
    (mint envC6 1 ⟨some "grp", none⟩).caught = some "Minting failed! Please try again!" ∧
    (mint envC6 1 ⟨some "grp", none⟩).result = CallerResult.returned [] := by
  refine ⟨by decide, by decide, by decide, by decide⟩

/-- C7 (amended): the plan contains exactly one leading route transaction
builder carrying the caller's proof exactly when an explicit group label
is passed and an allow-list is configured for that label with a non-empty
caller proof — independently of the group's guard set — followed by
exactly `quantity` mint builders, each receiving the per-item NFT guard
settings selected by its request index and the shared allow-list proof;
with no explicit label (or no configured allow-list for it) the plan is
exactly the `quantity` mint builders and no route transaction. -/
theorem C7_plan_shape_amended (g : GuardGroup) (cm : CandyMachine) (q bh : Nat)
    (fp l : String) (p root : Nat) (ps : List Nat)
    (ng : Option (List NftGuardSettings)) (m : Option (List (String × Merkle))) :
    (mint (envLabelled l g cm p ps root fp bh) q ⟨some l, ng⟩).plan.map Transaction.kind
      = TxKind.route (p :: ps) (some l)
        :: ((List.range q).map fun i =>
            TxKind.mintTx i (guardsFor ⟨some l, ng⟩ i (some (p :: ps)))) ∧
    (mint (envUnlabelled g cm m fp bh) q ⟨none, ng⟩).plan.map Transaction.kind
      = (List.range q).map fun i => TxKind.mintTx i (guardsFor ⟨none, ng⟩ i none) := by
  constructor
  · simp [mint, mintTry, envLabelled, objGet, firstFailure_nil,
      List.map_map, Function.comp_def]
  · simp [mint, mintTry, envUnlabelled, objGet, firstFailure_nil,
      List.map_map, Function.comp_def]

/-- C9: within one mint call, the latest blockhash is fetched at most
once — exactly once whenever the call built any transactions — and every
transaction in the plan carries that same blockhash and the same shared
fee-payer (the wallet's public key). -/
theorem C9_single_blockhash_shared (env : MintEnv) (q : Nat) (opts : MintOpts) :
    fetchCount (mint env q opts).events ≤ 1 ∧
    ((mint env q opts).plan.all fun tx =>
      tx.recentBlockhash == env.blockhash && tx.feePayer == env.walletPublicKey) = true ∧
    ((mint env q opts).plan.isEmpty
      || (fetchCount (mint env q opts).events == 1)) = true := by
  obtain ⟨gl, ng⟩ := opts
  have main : ∀ al : Option (List Nat),
      fetchCount ((mintTry env q ⟨gl, ng⟩ al).events ++ [Event.refresh]) ≤ 1 ∧
      ((mintTry env q ⟨gl, ng⟩ al).plan.all fun tx =>
        tx.recentBlockhash == env.blockhash
          && tx.feePayer == env.walletPublicKey) = true ∧
      ((mintTry env q ⟨gl, ng⟩ al).plan.isEmpty
        || (fetchCount ((mintTry env q ⟨gl, ng⟩ al).events ++ [Event.refresh]) == 1))
          = true := by
    intro al
    have h := mintTry_trace env q ⟨gl, ng⟩ al
    have hr : fetchCount ((mintTry env q ⟨gl, ng⟩ al).events ++ [Event.refresh])
        = fetchCount (mintTry env q ⟨gl, ng⟩ al).events := by
      rw [fetchCount_append]
      simp [fetchCount, isFetch]
    refine ⟨hr ▸ h.1, ?_, ?_⟩
    · rw [List.all_eq_true]
      intro tx htx
      have hx := h.2.1 tx htx
      simp [hx.1, hx.2]
    · rw [hr]
      cases hp : (mintTry env q ⟨gl, ng⟩ al).plan with
      | nil => simp
      | cons a rest =>
        have h1 := h.2.2 (by rw [hp]; simp)
        simp [h1]
  cases gl with
  | none =>
    simp only [mint]
    split
    · exact ⟨by simp [fetchCount], by simp, by simp⟩
    · exact main none
  | some l =>
    cases hm : env.merkles with
    | none =>
      simp only [mint, hm]
      split
      · exact ⟨by simp [fetchCount], by simp, by simp⟩
      · exact ⟨by simp [fetchCount], by simp, by simp⟩
    | some ms =>
      simp only [mint, hm]
      split
      · exact ⟨by simp [fetchCount], by simp, by simp⟩
      · exact main ((objGet ms l).map fun mk => mk.proof)

/-- C10: a mint call without an explicit group label never builds a route
transaction and never applies any allow-list proof or empty-proof check:
every planned transaction is a plain mint transaction whose guard
settings carry no allow-list proof, and the call's outcome is entirely
independent of the configured allow-lists (`proofMemo.merkles`) — in
particular unchanged when an allow-list is configured for the "default"
label and whatever allowList guard the default group's guard set
carries. -/
theorem C10_default_label_skips_allowlist (env : MintEnv) (q : Nat)
    (ng : Option (List NftGuardSettings)) (m1 m2 : Option (List (String × Merkle))) :
    ((mint env q ⟨none, ng⟩).plan.all fun tx => isPlainMint tx.kind) = true ∧
    mint { env with merkles := m1 } q ⟨none, ng⟩
      = mint { env with merkles := m2 } q ⟨none, ng⟩ := by
  constructor
  · rw [List.all_eq_true]
    intro tx htx
    simp only [mint] at htx
    split at htx
    · simp at htx
    · dsimp only at htx
      rcases mintTry_plan_shape env q ⟨none, ng⟩ none with hp | hp
      · rw [hp] at htx
        simp at htx
      · rw [hp] at htx
        simp only [List.nil_append] at htx
        rcases List.mem_map.mp htx with ⟨k, hk, rfl⟩
        rcases List.mem_map.mp hk with ⟨i, -, rfl⟩
        simp [isPlainMint, guardsFor_allowList_none]
  · rfl

end CandyMachine
